import Mathlib

/-!
Shallow embedding of `gdnative-derive/src/methods.rs`: the attribute-driven
method-export pass (`derive_methods` / `impl_gdnative_expose`), its directive
parsing, signature validation, normalization and registration emission.

Token streams are modelled at the level the Rust code inspects them after
`syn` parsing: attributes carry their parsed `Meta` payload, patterns and
types are modelled by the constructors the code matches on, with opaque
string payloads where the code treats them opaquely.
-/

set_option autoImplicit false

namespace Gdnative

/-- Mirror of the `RpcMode` enum in `methods.rs`. -/
inductive RpcMode
  | Disabled
  | Remote
  | RemoteSync
  | Master
  | Puppet
  | MasterSync
  | PuppetSync
  deriving DecidableEq, Repr

/-- Mirror of `RpcMode::parse`: the seven literal mode strings, anything else is `none`. -/
def RpcMode.parse (s : String) : Option RpcMode :=
  if s = "remote" then some RpcMode.Remote
  else if s = "remote_sync" then some RpcMode.RemoteSync
  else if s = "master" then some RpcMode.Master
  else if s = "puppet" then some RpcMode.Puppet
  else if s = "disabled" then some RpcMode.Disabled
  else if s = "master_sync" then some RpcMode.MasterSync
  else if s = "puppet_sync" then some RpcMode.PuppetSync
  else none

/-- Mirror of the `ToTokens` impl for `RpcMode`: the emitted token text. -/
def RpcMode.toTokens : RpcMode → String
  | RpcMode.Disabled => "RpcMode::Disabled"
  | RpcMode.Remote => "RpcMode::Remote"
  | RpcMode.RemoteSync => "RpcMode::RemoteSync"
  | RpcMode.Master => "RpcMode::Master"
  | RpcMode.Puppet => "RpcMode::Puppet"
  | RpcMode.MasterSync => "RpcMode::MasterSync"
  | RpcMode.PuppetSync => "RpcMode::PuppetSync"

/-- Mirror of `ExportArgs`. -/
structure ExportArgs where
  optional_args : Option Nat
  rpc_mode : RpcMode
  deriving DecidableEq, Repr

/-- Mirror of `ExportArgs::default()` (`Default` derive: `None`, `Disabled`). -/
def ExportArgs.default : ExportArgs := ⟨none, RpcMode.Disabled⟩

/-- Attribute style: `syn::AttrStyle`. -/
inductive AttrStyle
  | Outer
  | Inner
  deriving DecidableEq, Repr

/-- Literal values as the code distinguishes them: string literals vs anything else. -/
inductive Lit
  | str (value : String)
  | other
  deriving DecidableEq, Repr

/-- Mirror of `syn::MetaNameValue`: a path (list of segments) and a literal. -/
structure MetaNameValue where
  path : List String
  lit : Lit
  deriving DecidableEq, Repr

/-- Mirror of `syn::NestedMeta` as matched by the code: name/value pairs vs anything
else (kept as its token text, used in the diagnostic). -/
inductive NestedMeta
  | nameValue (pair : MetaNameValue)
  | other (tokens : String)
  deriving DecidableEq, Repr

/-- Mirror of `syn::Meta` as matched by the code: a list, a top-level name/value
pair, or anything else (kept as its token text). -/
inductive AttrMeta
  | list (nested : List NestedMeta)
  | nameValue (pair : MetaNameValue)
  | other (tokens : String)
  deriving DecidableEq, Repr

/-- The token payload of an attribute, at the level `attr.parse_meta()` sees it:
empty tokens, a successfully parsed meta, or a parse failure with its message. -/
inductive AttrTokens
  | empty
  | meta (m : AttrMeta)
  | malformed (msg : String)
  deriving DecidableEq, Repr

/-- Mirror of `syn::Attribute`: style, path segments, token payload. -/
structure Attr where
  style : AttrStyle
  path : List String
  tokens : AttrTokens
  deriving DecidableEq, Repr

/-- Patterns as the normalization code matches them: wildcard, identifier
(with mutability), anything else. -/
inductive Pat
  | wild
  | ident (mutability : Bool) (name : String)
  | other
  deriving DecidableEq, Repr

/-- Mirror of `syn::FnArg`: a receiver (`self`) or a typed argument. -/
inductive FnArg
  | receiver (attrs : List Attr)
  | typed (attrs : List Attr) (pat : Pat) (ty : String)
  deriving DecidableEq, Repr

/-- Generic parameters of a signature, by count of each kind. -/
structure Generics where
  type_params : Nat
  lifetimes : Nat
  const_params : Nat
  deriving DecidableEq, Repr

/-- Mirror of `syn::Signature` in the fields the pass inspects. -/
structure Signature where
  ident : String
  unsafety : Bool
  generics : Generics
  inputs : List FnArg
  output : Option String
  deriving DecidableEq, Repr

/-- Mirror of `syn::ImplItem` as matched by the code: a method, a verbatim
token stream (used for emitted `compile_error!` diagnostics, carried here as
the diagnostic message), or anything else. -/
inductive ImplItem
  | method (attrs : List Attr) (sig : Signature) (body : String)
  | verbatim (tokens : String)
  | other (tokens : String)
  deriving DecidableEq, Repr

/-- Mirror of `syn::ItemImpl` in the fields the pass inspects. -/
structure ItemImpl where
  self_ty : String
  items : List ImplItem
  deriving DecidableEq, Repr

/-- Mirror of `ExportMethod`. -/
structure ExportMethod where
  sig : Signature
  args : ExportArgs
  deriving DecidableEq, Repr

/-- Mirror of `ClassMethodExport`. -/
structure ClassMethodExport where
  class_ty : String
  methods : List ExportMethod
  deriving DecidableEq, Repr

/-- State threaded through the `method.attrs.retain(|attr| ...)` closure:
the `export_args`, `rpc` and `errors` locals of `impl_gdnative_expose`. -/
structure AttrState where
  export_args : Option ExportArgs
  rpc : Option RpcMode
  errors : List String
  deriving DecidableEq, Repr

/-- The `filter_map` over `list.nested` collecting name/value pairs and pushing
an `unexpected argument in list` diagnostic for every other nested meta. -/
def collectPairs : List NestedMeta → List MetaNameValue × List String
  | [] => ([], [])
  | NestedMeta.nameValue pair :: rest =>
    let (ps, es) := collectPairs rest
    (pair :: ps, es)
  | NestedMeta.other tokens :: rest =>
    let (ps, es) := collectPairs rest
    (ps, ("unexpected argument in list: " ++ tokens) :: es)

/-- The `for MetaNameValue { path, lit, .. } in pairs` loop. A `return false`
in the Rust closure leaves the loop with the pairs that follow unprocessed:
the empty-path error and every branch of the `rpc` arm stop here, while an
unknown key pushes its diagnostic and continues with the next pair. -/
def processPairs : Option RpcMode → List String → List MetaNameValue →
    Option RpcMode × List String
  | rpc, errors, [] => (rpc, errors)
  | rpc, errors, pair :: rest =>
    match pair.path.getLast? with
    | none => (rpc, errors ++ ["the path should not be empty"])
    | some last =>
      if last = "rpc" then
        match pair.lit with
        | Lit.str value =>
          match RpcMode.parse value with
          | some mode =>
            if rpc.isSome then
              (some mode, errors ++ ["rpc mode was set more than once"])
            else
              (some mode, errors)
          | none => (rpc, errors ++ ["unexpected value for rpc: " ++ value])
        | Lit.other => (rpc, errors ++ ["unexpected type for rpc value, expected Str"])
      else
        processPairs rpc (errors ++ ["unknown option for export: `" ++ last ++ "`"]) rest

/-- One evaluation of the `retain` closure body on a single attribute: returns
the updated locals and whether the attribute is kept. Only outer-style
attributes whose last path segment is `export` are recognized; they are always
dropped, with their payload parsed into the state. -/
def processAttr (st : AttrState) (attr : Attr) : AttrState × Bool :=
  if attr.style = AttrStyle.Outer ∧ attr.path.getLast? = some "export" then
    let st1 : AttrState := { st with export_args := some (st.export_args.getD ExportArgs.default) }
    match attr.tokens with
    | AttrTokens.empty => (st1, false)
    | AttrTokens.malformed msg => ({ st1 with errors := st1.errors ++ [msg] }, false)
    | AttrTokens.meta m =>
      match m with
      | AttrMeta.list nested =>
        let (pairs, collectErrors) := collectPairs nested
        let (rpc, errors) := processPairs st1.rpc (st1.errors ++ collectErrors) pairs
        ({ st1 with rpc := rpc, errors := errors }, false)
      | AttrMeta.nameValue pair =>
        let (rpc, errors) := processPairs st1.rpc st1.errors [pair]
        ({ st1 with rpc := rpc, errors := errors }, false)
      | AttrMeta.other tokens =>
        ({ st1 with errors := st1.errors ++ ["unexpected attribute argument: " ++ tokens] }, false)
  else
    (st, true)

/-- The `method.attrs.retain(...)` call: fold `processAttr` over the attribute
list in order, keeping the attributes for which the closure returned true. -/
def retainAttrs (st : AttrState) : List Attr → AttrState × List Attr
  | [] => (st, [])
  | attr :: rest =>
    let (st1, keep) := processAttr st attr
    let (st2, kept) := retainAttrs st1 rest
    (st2, if keep then attr :: kept else kept)

/-- Mirror of `attr.path.is_ident("opt")`: a bare single-segment path `opt`. -/
def isOptAttr (attr : Attr) : Bool :=
  attr.path = ["opt"]

/-- Attributes of an argument (`FnArg::Receiver(a) => &mut a.attrs`, likewise typed). -/
def FnArg.attrs : FnArg → List Attr
  | FnArg.receiver attrs => attrs
  | FnArg.typed attrs _ _ => attrs

/-- Replace the attributes of an argument. -/
def FnArg.setAttrs : FnArg → List Attr → FnArg
  | FnArg.receiver _, attrs => FnArg.receiver attrs
  | FnArg.typed _ pat ty, attrs => FnArg.typed attrs pat ty

/-- The `for (n, arg) in method.sig.inputs.iter_mut().enumerate()` loop of the
optional-parameter scan: strips `opt` attributes from every argument, counts
optional arguments after index 1, and pushes the `self or owner cannot be
optional` / `cannot add required parameters after optional ones` diagnostics
(continuing with the next argument after either). -/
def scanOptional : Nat → Option Nat → List String → List FnArg →
    List FnArg × Option Nat × List String
  | _, optional_args, errors, [] => ([], optional_args, errors)
  | n, optional_args, errors, arg :: rest =>
    let kept := arg.attrs.filter (fun a => ! isOptAttr a)
    let is_optional := arg.attrs.any isOptAttr
    let arg1 := arg.setAttrs kept
    if is_optional then
      if n < 2 then
        let (args, o, e) := scanOptional (n + 1) optional_args
          (errors ++ ["self or owner cannot be optional"]) rest
        (arg1 :: args, o, e)
      else
        let (args, o, e) := scanOptional (n + 1) (some (optional_args.getD 0 + 1)) errors rest
        (arg1 :: args, o, e)
    else
      if optional_args.isSome then
        let (args, o, e) := scanOptional (n + 1) optional_args
          (errors ++ ["cannot add required parameters after optional ones"]) rest
        (arg1 :: args, o, e)
      else
        let (args, o, e) := scanOptional (n + 1) optional_args errors rest
        (arg1 :: args, o, e)

/-- The `ImplItem::Method` arm of the extraction loop: run the attribute
retain, then (when the export marker was seen) the optional-parameter scan,
and return the items contributed to the rewritten impl block (diagnostics as
verbatim items, then the rewritten method) together with the
`ExportMethod` pushed onto `methods_to_export`, if any. -/
def processMethod (attrs : List Attr) (sig : Signature) (body : String) :
    List ImplItem × Option ExportMethod :=
  let (st, keptAttrs) := retainAttrs ⟨none, none, []⟩ attrs
  match st.export_args with
  | some ea =>
    let (inputs1, optional_args, errors) := scanOptional 0 none st.errors sig.inputs
    let sig1 : Signature := { sig with inputs := inputs1 }
    let ea1 : ExportArgs := { ea with
      optional_args := optional_args
      rpc_mode := st.rpc.getD RpcMode.Disabled }
    (errors.map ImplItem.verbatim ++ [ImplItem.method keptAttrs sig1 body],
      some ⟨sig1, ea1⟩)
  | none =>
    (st.errors.map ImplItem.verbatim ++ [ImplItem.method keptAttrs sig body], none)

/-- The first loop of `impl_gdnative_expose` over `ast.items`: rebuilt items
in order, plus `methods_to_export` in declaration order. -/
def extractItems : List ImplItem → List ImplItem × List ExportMethod
  | [] => ([], [])
  | ImplItem.method attrs sig body :: rest =>
    let (items, exported) := processMethod attrs sig body
    let (restItems, restExported) := extractItems rest
    (items ++ restItems, exported.toList ++ restExported)
  | item :: rest =>
    let (restItems, restExported) := extractItems rest
    (item :: restItems, restExported)

/-- The wildcard-renaming / `mut`-stripping closure over one pattern at
argument index `i`. -/
def normalizePat (i : Nat) : Pat → Pat
  | Pat.wild => Pat.ident false ("___unused_arg_" ++ toString i)
  | Pat.ident _ name => Pat.ident false name
  | Pat.other => Pat.other

/-- The normalization step applied to one argument: only `FnArg::Typed`
patterns are rewritten, receivers are untouched. -/
def normalizeArg (i : Nat) : FnArg → FnArg
  | FnArg.typed attrs pat ty => FnArg.typed attrs (normalizePat i pat) ty
  | FnArg.receiver attrs => FnArg.receiver attrs

/-- The `sig.inputs.iter_mut().enumerate().for_each(...)` normalization loop. -/
def normalizeInputs (inputs : List FnArg) : List FnArg :=
  inputs.enum.map (fun p => normalizeArg p.1 p.2)

/-- The per-method shape check of the second loop of `impl_gdnative_expose`:
generics checks in order (type, lifetime, const), each `continue`-ing with
just its own diagnostic, then normalization (wildcard naming, `mut` and
unsafety stripping) on success. -/
def checkShape (m : ExportMethod) : Except String ExportMethod :=
  if 0 < m.sig.generics.type_params then
    Except.error "Type parameters not allowed in exported functions"
  else if 0 < m.sig.generics.lifetimes then
    Except.error "Lifetime parameters not allowed in exported functions"
  else if 0 < m.sig.generics.const_params then
    Except.error "const parameters not allowed in exported functions"
  else
    Except.ok { m with sig :=
      { m.sig with inputs := normalizeInputs m.sig.inputs, unsafety := false } }

/-- The second loop of `impl_gdnative_expose` over `methods_to_export`:
diagnostics of rejected methods are appended (in order) to the rewritten impl
block, accepted methods are pushed (in order) onto `export.methods`. -/
def shapeCheckAll : List ExportMethod → List ImplItem × List ExportMethod
  | [] => ([], [])
  | m :: rest =>
    let (items, methods) := shapeCheckAll rest
    match checkShape m with
    | Except.error msg => (ImplItem.verbatim msg :: items, methods)
    | Except.ok m1 => (items, m1 :: methods)

/-- Mirror of `impl_gdnative_expose`: the rewritten impl block (original items
rebuilt in order, then the shape-check diagnostics) and the
`ClassMethodExport`. -/
def impl_gdnative_expose (ast : ItemImpl) : ItemImpl × ClassMethodExport :=
  let (items, methods_to_export) := extractItems ast.items
  let (shapeErrors, okMethods) := shapeCheckAll methods_to_export
  ({ ast with items := items ++ shapeErrors }, ⟨ast.self_ty, okMethods⟩)

/-- One entry of the generated `register` function body: either a
`compile_error!` marker (carried as its message) or a registration statement,
carried as the data the `godot_wrap_method!` / `build_method` call is built
from: method name, argument list (the last `optional_count` arguments are
tagged `#[opt]` in the emitted tokens), return type tokens, and rpc mode. -/
inductive RegItem
  | err (msg : String)
  | register (name : String) (args : List FnArg) (optional_count : Nat)
      (ret_ty : String) (rpc : RpcMode)
  deriving DecidableEq, Repr

/-- The per-method closure of `derive_methods`: the arity floor, then the
optional-count bound against the final arity, then the registration
statement. -/
def emitMethod (m : ExportMethod) : RegItem :=
  let arg_count := m.sig.inputs.length
  if arg_count < 2 then
    RegItem.err "exported methods must take self and owner as arguments"
  else
    match m.args.optional_args with
    | some count =>
      let max_optional := arg_count - 2
      if max_optional < count then
        RegItem.err ("there can be at most " ++ toString max_optional ++
          " optional arguments, got " ++ toString count)
      else
        RegItem.register m.sig.ident m.sig.inputs count (m.sig.output.getD "()") m.args.rpc_mode
    | none =>
      RegItem.register m.sig.ident m.sig.inputs 0 (m.sig.output.getD "()") m.args.rpc_mode

/-- The output of `derive_methods`: the rewritten impl block and the
`NativeClassMethods::register` body for the class. -/
structure DeriveOutput where
  impl_block : ItemImpl
  class_name : String
  register_items : List RegItem
  deriving DecidableEq, Repr

/-- Mirror of `derive_methods`: run `impl_gdnative_expose`, then map the
registration emitter over the exported methods in order. -/
def derive_methods (item_impl : ItemImpl) : DeriveOutput :=
  let (impl_block, exp) := impl_gdnative_expose item_impl
  ⟨impl_block, exp.class_ty, exp.methods.map emitMethod⟩

/-! Concrete example inputs used by counterexamples and witnesses. -/

/-- An outer-style `export` attribute with the given token payload. -/
def exportAttr (t : AttrTokens) : Attr := ⟨AttrStyle.Outer, ["export"], t⟩

/-- The parameter-level `opt` marker. -/
def optAttr : Attr := ⟨AttrStyle.Outer, ["opt"], AttrTokens.empty⟩

/-- A plain receiver argument. -/
def selfArg : FnArg := FnArg.receiver []

/-- A typical owner argument. -/
def ownerArg : FnArg := FnArg.typed [] (Pat.ident false "owner") "TRef"

/-- A named `i64` argument with the given attributes. -/
def argN (n : String) (attrs : List Attr) : FnArg := FnArg.typed attrs (Pat.ident false n) "i64"

/-- A signature with no generics, no unsafety and default return type. -/
def mkSig (name : String) (inputs : List FnArg) : Signature := ⟨name, false, ⟨0, 0, 0⟩, inputs, none⟩

/-- The seven literal rpc mode strings recognized by `RpcMode::parse`. -/
def rpcModeNames : List String :=
  ["remote", "remote_sync", "master", "puppet", "disabled", "master_sync", "puppet_sync"]

/-! Helper lemmas. -/

/-- The retain closure keeps every attribute that is not an outer-style
`export` attribute and leaves the state untouched on it. -/
theorem retainAttrs_of_no_export (st : AttrState) (attrs : List Attr)
    (h : ∀ a ∈ attrs, ¬(a.style = AttrStyle.Outer ∧ a.path.getLast? = some "export")) :
    retainAttrs st attrs = (st, attrs) := by
  induction attrs with
  | nil => rfl
  | cons a rest ih =>
    have ha := h a (List.mem_cons_self a rest)
    have hrest : ∀ b ∈ rest, ¬(b.style = AttrStyle.Outer ∧ b.path.getLast? = some "export") :=
      fun b hb => h b (List.mem_cons_of_mem a hb)
    simp [retainAttrs, processAttr, ha, ih hrest]

/-- A method none of whose attributes is an outer-style `export` attribute
passes through the extraction arm unchanged: no diagnostics, no export
record. -/
theorem processMethod_of_no_export (attrs : List Attr) (sig : Signature) (body : String)
    (h : ∀ a ∈ attrs, ¬(a.style = AttrStyle.Outer ∧ a.path.getLast? = some "export")) :
    processMethod attrs sig body = ([ImplItem.method attrs sig body], none) := by
  simp [processMethod, retainAttrs_of_no_export _ _ h]

/-- A member that carries no outer-style `export` marker: methods with no
such attribute, and non-method items. -/
def NonExported : ImplItem → Prop
  | ImplItem.method attrs _ _ =>
    ∀ a ∈ attrs, ¬(a.style = AttrStyle.Outer ∧ a.path.getLast? = some "export")
  | ImplItem.verbatim _ => True
  | ImplItem.other _ => True

/-- Extraction distributes over list append. -/
theorem extractItems_append (xs ys : List ImplItem) :
    extractItems (xs ++ ys) =
      ((extractItems xs).1 ++ (extractItems ys).1,
        (extractItems xs).2 ++ (extractItems ys).2) := by
  induction xs with
  | nil => simp [extractItems]
  | cons x rest ih =>
    cases x <;> simp [extractItems, ih]

/-- A non-exported member contributes nothing to `methods_to_export`. -/
theorem extractItems_snd_cons_of_nonExported (item : ImplItem) (ys : List ImplItem)
    (h : NonExported item) :
    (extractItems (item :: ys)).2 = (extractItems ys).2 := by
  cases item with
  | method attrs sig body =>
    simp [extractItems, processMethod_of_no_export attrs sig body h]
  | verbatim t => simp [extractItems]
  | other t => simp [extractItems]

/-! Claim theorems. -/

/-- Claim C6: for each of the seven literal rpc mode strings, parsing selects
exactly that enumeration value and re-emitting it produces that value's own
token text (no cross-mapping), and parsing any other string yields no mode. -/
theorem c6_rpc_round_trip :
    (RpcMode.parse "remote" = some RpcMode.Remote ∧
        RpcMode.toTokens RpcMode.Remote = "RpcMode::Remote") ∧
      (RpcMode.parse "remote_sync" = some RpcMode.RemoteSync ∧
        RpcMode.toTokens RpcMode.RemoteSync = "RpcMode::RemoteSync") ∧
      (RpcMode.parse "master" = some RpcMode.Master ∧
        RpcMode.toTokens RpcMode.Master = "RpcMode::Master") ∧
      (RpcMode.parse "puppet" = some RpcMode.Puppet ∧
        RpcMode.toTokens RpcMode.Puppet = "RpcMode::Puppet") ∧
      (RpcMode.parse "disabled" = some RpcMode.Disabled ∧
        RpcMode.toTokens RpcMode.Disabled = "RpcMode::Disabled") ∧
      (RpcMode.parse "master_sync" = some RpcMode.MasterSync ∧
        RpcMode.toTokens RpcMode.MasterSync = "RpcMode::MasterSync") ∧
      (RpcMode.parse "puppet_sync" = some RpcMode.PuppetSync ∧
        RpcMode.toTokens RpcMode.PuppetSync = "RpcMode::PuppetSync") ∧
      (∀ s : String, s ∉ rpcModeNames → RpcMode.parse s = none) := by
  refine ⟨by decide, by decide, by decide, by decide, by decide, by decide, by decide, ?_⟩
  intro s hs
  simp only [rpcModeNames, List.mem_cons, List.not_mem_nil, or_false, not_or] at hs
  obtain ⟨h1, h2, h3, h4, h5, h6, h7⟩ := hs
  simp [RpcMode.parse, h1, h2, h3, h4, h5, h6, h7]

/-- Witness for C6: a string outside the seven names parses to `none`. -/
theorem c6_witness : RpcMode.parse "sync" = none :=
  c6_rpc_round_trip.2.2.2.2.2.2.2 "sync" (by decide)

/-- Over a run of arguments each marked optional, at indices at least two,
the scan adds one per argument to the running count and pushes no
diagnostics. -/
theorem scanOptional_marked_count (opts : List FnArg) :
    ∀ (n c : Nat) (errors : List String), 2 ≤ n →
    (∀ a ∈ opts, a.attrs.any isOptAttr = true) →
    (scanOptional n (some c) errors opts).2.1 = some (c + opts.length) ∧
    (scanOptional n (some c) errors opts).2.2 = errors := by
  induction opts with
  | nil => intro n c errors _ _; simp [scanOptional]
  | cons a rest ih =>
    intro n c errors hn h
    have ha : a.attrs.any isOptAttr = true := h a (List.mem_cons_self _ _)
    have step := ih (n + 1) (c + 1) errors (by omega)
      (fun b hb => h b (List.mem_cons_of_mem _ hb))
    simp only [scanOptional, ha, if_true, Nat.not_lt.2 hn, if_false, if_neg (Nat.not_lt.2 hn),
      Option.getD_some, List.length_cons]
    rw [(by omega : c + (rest.length + 1) = (c + 1) + rest.length)]
    exact step

/-- Over a run of unmarked arguments, with no optional argument seen yet, the
scan only advances the index: count and diagnostics are those of the rest. -/
theorem scanOptional_unmarked_prefix (pre : List FnArg) :
    ∀ (n : Nat) (errors : List String) (rest : List FnArg),
    (∀ a ∈ pre, a.attrs.any isOptAttr = false) →
    (scanOptional n none errors (pre ++ rest)).2.1 =
      (scanOptional (n + pre.length) none errors rest).2.1 ∧
    (scanOptional n none errors (pre ++ rest)).2.2 =
      (scanOptional (n + pre.length) none errors rest).2.2 := by
  induction pre with
  | nil => intro n errors rest _; simp
  | cons a prest ih =>
    intro n errors rest h
    have ha : a.attrs.any isOptAttr = false := h a (List.mem_cons_self _ _)
    have step := ih (n + 1) errors rest (fun b hb => h b (List.mem_cons_of_mem _ hb))
    simp only [List.cons_append, scanOptional, ha, Bool.false_eq_true, if_false,
      Option.isSome_none, List.length_cons]
    rw [(by omega : n + (prest.length + 1) = (n + 1) + prest.length)]
    exact step

/-- Entering a nonempty run of marked arguments at index at least two from a
state with no optional argument seen yet yields exactly the run's length. -/
theorem scanOptional_marked_entry (opts : List FnArg) (n : Nat) (errors : List String)
    (hn : 2 ≤ n) (h : ∀ a ∈ opts, a.attrs.any isOptAttr = true) (hne : opts ≠ []) :
    (scanOptional n none errors opts).2.1 = some opts.length ∧
    (scanOptional n none errors opts).2.2 = errors := by
  cases opts with
  | nil => exact absurd rfl hne
  | cons a rest =>
    have ha : a.attrs.any isOptAttr = true := h a (List.mem_cons_self _ _)
    have step := scanOptional_marked_count rest (n + 1) 1 errors (by omega)
      (fun b hb => h b (List.mem_cons_of_mem _ hb))
    simp only [scanOptional, ha, if_true, if_neg (Nat.not_lt.2 hn), Option.getD_none,
      List.length_cons]
    rw [(by omega : rest.length + 1 = 1 + rest.length)]
    exact step

/-- Claim C5: for a method whose parameters are an unmarked prefix of length
at least two (receiver, owner and required parameters) followed by `k`
trailing parameters marked optional, the scan derives optional count `k`
with no diagnostics; and at emission, a declared optional count `k` is
accepted with `optional_arg_count = k` when `k` is at most arity minus two,
and rejected with the exact bound message when it exceeds it. -/
theorem c5_optional_bound :
    (∀ (pre opts : List FnArg) (errors : List String),
      2 ≤ pre.length →
      (∀ a ∈ pre, a.attrs.any isOptAttr = false) →
      (∀ a ∈ opts, a.attrs.any isOptAttr = true) →
      opts ≠ [] →
      (scanOptional 0 none errors (pre ++ opts)).2.1 = some opts.length ∧
      (scanOptional 0 none errors (pre ++ opts)).2.2 = errors) ∧
    (∀ (m : ExportMethod) (k : Nat),
      m.args.optional_args = some k →
      2 ≤ m.sig.inputs.length →
      (k ≤ m.sig.inputs.length - 2 →
        emitMethod m = RegItem.register m.sig.ident m.sig.inputs k
          (m.sig.output.getD "()") m.args.rpc_mode) ∧
      (m.sig.inputs.length - 2 < k →
        emitMethod m = RegItem.err ("there can be at most " ++
          toString (m.sig.inputs.length - 2) ++ " optional arguments, got " ++
          toString k))) := by
  constructor
  · intro pre opts errors hlen hpre hopts hne
    have hsplit := scanOptional_unmarked_prefix pre 0 errors opts hpre
    have hentry := scanOptional_marked_entry opts (0 + pre.length) errors (by omega) hopts hne
    exact ⟨hsplit.1.trans hentry.1, hsplit.2.trans hentry.2⟩
  · intro m k hk h2
    constructor <;> intro h <;>
      simp [emitMethod, hk, Nat.not_lt.2 h2, Nat.not_lt.2, h]

/-- Witness for C5: `[self, owner]` followed by one marked parameter scans to
optional count one, and a three-argument method with optional count one is
accepted with optional count one. -/
theorem c5_witness :
    ((scanOptional 0 none [] ([selfArg, ownerArg] ++ [argN "a" [optAttr]])).2.1 = some 1 ∧
      (scanOptional 0 none [] ([selfArg, ownerArg] ++ [argN "a" [optAttr]])).2.2 = []) ∧
    emitMethod ⟨mkSig "w" [selfArg, ownerArg, argN "a" []], ⟨some 1, RpcMode.Disabled⟩⟩ =
      RegItem.register "w" [selfArg, ownerArg, argN "a" []] 1 "()" RpcMode.Disabled :=
  ⟨c5_optional_bound.1 [selfArg, ownerArg] [argN "a" [optAttr]] []
      (by decide) (by decide) (by decide) (by decide),
    (c5_optional_bound.2 _ 1 rfl (by decide)).1 (by decide)⟩

/-- Claim C2 (amended): a method reaching the registration emitter with fewer
than two parameters is rejected with the arity diagnostic; the check lives in
the emitter, not before the other validation rules. -/
theorem c2_arity_floor (m : ExportMethod) (h : m.sig.inputs.length < 2) :
    emitMethod m = RegItem.err "exported methods must take self and owner as arguments" := by
  simp [emitMethod, h]

/-- Witness for C2: a zero-argument exported method is rejected with the
arity diagnostic by the emitter. -/
theorem c2_witness :
    emitMethod ⟨mkSig "w" [], ExportArgs.default⟩ =
      RegItem.err "exported methods must take self and owner as arguments" :=
  c2_arity_floor _ (by decide)

/-- Claim C1 (amended): any `rpc` pair ends parsing of its payload — the
remaining pairs of that attribute are dropped, whether the pair succeeded or
hit one of the three rpc errors — while a pair with any other key pushes its
unknown-option diagnostic and parsing continues with the next pair. -/
theorem c1_rpc_pair_stops_payload (rpc : Option RpcMode) (errors : List String)
    (pair : MetaNameValue) (rest rest2 : List MetaNameValue) :
    (pair.path.getLast? = some "rpc" →
      processPairs rpc errors (pair :: rest) = processPairs rpc errors (pair :: rest2)) ∧
    (∀ key, pair.path.getLast? = some key → key ≠ "rpc" →
      processPairs rpc errors (pair :: rest) =
        processPairs rpc (errors ++ ["unknown option for export: `" ++ key ++ "`"]) rest) := by
  constructor
  · intro hpath
    simp [processPairs, hpath]
  · intro key hpath hkey
    simp [processPairs, hpath, hkey]

/-- Witness for C1: after a non-string `rpc` value, a following pair is
dropped without being parsed. -/
theorem c1_witness :
    processPairs none [] [⟨["rpc"], Lit.other⟩, ⟨["rpc"], Lit.str "remote"⟩] =
      processPairs none [] [⟨["rpc"], Lit.other⟩] :=
  (c1_rpc_pair_stops_payload none [] ⟨["rpc"], Lit.other⟩ _ _).1 (by decide)

/-- A payload with a non-string `rpc` pair followed by a valid `rpc` pair. -/
def implC1 : ItemImpl := ⟨"Foo", [ImplItem.method
  [exportAttr (AttrTokens.meta (AttrMeta.list
    [NestedMeta.nameValue ⟨["rpc"], Lit.other⟩,
      NestedMeta.nameValue ⟨["rpc"], Lit.str "remote"⟩]))]
  (mkSig "f" [selfArg, ownerArg]) "body"]⟩

/-- Counterexample for C1: with payload `rpc = <non-string>, rpc = "remote"`,
the later valid pair is not processed — the method ends with
`rpc_mode = Disabled`, not `Remote`, and only the type diagnostic is
emitted. -/
theorem c1_counterexample :
    (impl_gdnative_expose implC1).2.methods =
      [⟨mkSig "f" [selfArg, ownerArg], ⟨none, RpcMode.Disabled⟩⟩] ∧
    (impl_gdnative_expose implC1).1.items =
      [ImplItem.verbatim "unexpected type for rpc value, expected Str",
        ImplItem.method [] (mkSig "f" [selfArg, ownerArg]) "body"] := by
  constructor <;> rfl

/-- An exported zero-parameter method that also has a type parameter. -/
def implC2 : ItemImpl := ⟨"Foo",
  [ImplItem.method [exportAttr AttrTokens.empty] ⟨"g", false, ⟨1, 0, 0⟩, [], none⟩ "body"]⟩

/-- Counterexample for C2: a zero-parameter exported method with a type
parameter receives the generics diagnostic and no arity diagnostic — the
arity floor is not checked before the generics ban. -/
theorem c2_counterexample :
    (derive_methods implC2).impl_block.items =
      [ImplItem.method [] ⟨"g", false, ⟨1, 0, 0⟩, [], none⟩ "body",
        ImplItem.verbatim "Type parameters not allowed in exported functions"] ∧
    (derive_methods implC2).register_items = [] := by
  constructor <;> rfl

/-- An exported method with a type parameter, a lifetime parameter and a
const parameter all at once. -/
def implC3 : ItemImpl := ⟨"Foo",
  [ImplItem.method [exportAttr AttrTokens.empty]
    ⟨"h", false, ⟨1, 1, 1⟩, [selfArg, ownerArg], none⟩ "body"]⟩

/-- Counterexample for C3: a method with all three offending generic kinds
gets exactly one diagnostic (the type-parameter one), not one per kind. -/
theorem c3_counterexample :
    (derive_methods implC3).impl_block.items =
      [ImplItem.method [] ⟨"h", false, ⟨1, 1, 1⟩, [selfArg, ownerArg], none⟩ "body",
        ImplItem.verbatim "Type parameters not allowed in exported functions"] ∧
    (derive_methods implC3).register_items = [] := by
  constructor <;> rfl

/-- Claim C3 (amended): the shape check emits a single diagnostic for the
first offending generic kind in the order type, lifetime, const, and the
method is rejected. -/
theorem c3_generics_first_kind (m : ExportMethod) :
    (0 < m.sig.generics.type_params →
      checkShape m = Except.error "Type parameters not allowed in exported functions") ∧
    (m.sig.generics.type_params = 0 → 0 < m.sig.generics.lifetimes →
      checkShape m = Except.error "Lifetime parameters not allowed in exported functions") ∧
    (m.sig.generics.type_params = 0 → m.sig.generics.lifetimes = 0 →
      0 < m.sig.generics.const_params →
      checkShape m = Except.error "const parameters not allowed in exported functions") := by
  refine ⟨fun h1 => ?_, fun h1 h2 => ?_, fun h1 h2 h3 => ?_⟩ <;> simp [checkShape, *]

/-- Witness for C3: with both a type and a lifetime parameter present, the
shape check returns the type-parameter diagnostic. -/
theorem c3_witness :
    checkShape ⟨⟨"h", false, ⟨1, 1, 0⟩, [], none⟩, ExportArgs.default⟩ =
      Except.error "Type parameters not allowed in exported functions" :=
  (c3_generics_first_kind _).1 (by decide)

/-- An exported method with parameters `[self, owner, opt a, b]`. -/
def implC4a : ItemImpl := ⟨"Foo", [ImplItem.method [exportAttr AttrTokens.empty]
  (mkSig "f" [selfArg, ownerArg, argN "a" [optAttr], argN "b" []]) "body"]⟩

/-- An exported method with parameters `[self, owner, a, opt b]`. -/
def implC4b : ItemImpl := ⟨"Foo", [ImplItem.method [exportAttr AttrTokens.empty]
  (mkSig "f" [selfArg, ownerArg, argN "a" [], argN "b" [optAttr]]) "body"]⟩

/-- Counterexample for C4: with `[self, owner, opt a, b]` the diagnostic is
emitted, but the registration is not replaced by an error marker — the
method is still registered, with optional count one. -/
theorem c4_counterexample :
    (derive_methods implC4a).register_items =
      [RegItem.register "f" [selfArg, ownerArg, argN "a" [], argN "b" []] 1 "()"
        RpcMode.Disabled] ∧
    ImplItem.verbatim "cannot add required parameters after optional ones" ∈
      (derive_methods implC4a).impl_block.items := by
  constructor
  · rfl
  · decide

/-- Claim C4 (amended): `[self, owner, opt a, b]` produces the
non-contiguous-optional diagnostic yet the method is still registered with
optional count one, while `[self, owner, a, opt b]` is accepted with
optional count one and no diagnostic. -/
theorem c4_optional_placement :
    derive_methods implC4a =
      ⟨⟨"Foo", [ImplItem.verbatim "cannot add required parameters after optional ones",
        ImplItem.method [] (mkSig "f" [selfArg, ownerArg, argN "a" [], argN "b" []]) "body"]⟩,
        "Foo",
        [RegItem.register "f" [selfArg, ownerArg, argN "a" [], argN "b" []] 1 "()"
          RpcMode.Disabled]⟩ ∧
    derive_methods implC4b =
      ⟨⟨"Foo", [ImplItem.method []
        (mkSig "f" [selfArg, ownerArg, argN "a" [], argN "b" []]) "body"]⟩,
        "Foo",
        [RegItem.register "f" [selfArg, ownerArg, argN "a" [], argN "b" []] 1 "()"
          RpcMode.Disabled]⟩ := by
  constructor <;> rfl

/-- Three exported methods, the middle one with a type parameter. -/
def implC7 : ItemImpl := ⟨"Foo",
  [ImplItem.method [exportAttr AttrTokens.empty] (mkSig "m1" [selfArg, ownerArg]) "b1",
    ImplItem.method [exportAttr AttrTokens.empty]
      ⟨"m2", false, ⟨1, 0, 0⟩, [selfArg, ownerArg], none⟩ "b2",
    ImplItem.method [exportAttr AttrTokens.empty] (mkSig "m3" [selfArg, ownerArg]) "b3"]⟩

/-- Counterexample for C7: when the middle of three exported methods is
rejected by the generics ban, the registration sequence contains no marker
at its position — its diagnostic lands in the rewritten impl block
instead. -/
theorem c7_counterexample :
    (derive_methods implC7).register_items =
      [RegItem.register "m1" [selfArg, ownerArg] 0 "()" RpcMode.Disabled,
        RegItem.register "m3" [selfArg, ownerArg] 0 "()" RpcMode.Disabled] ∧
    ImplItem.verbatim "Type parameters not allowed in exported functions" ∈
      (derive_methods implC7).impl_block.items := by
  constructor
  · rfl
  · decide

/-- Claim C7 (amended): the registration sequence is invariant under
inserting a member without the export marker anywhere in the class, and it
contains exactly one entry per method that survived the generics shape
check, in declaration order. -/
theorem c7_order_preservation (c : String) (xs ys : List ImplItem) (item : ImplItem)
    (h : NonExported item) :
    (derive_methods ⟨c, xs ++ item :: ys⟩).register_items =
      (derive_methods ⟨c, xs ++ ys⟩).register_items ∧
    (derive_methods ⟨c, xs ++ ys⟩).register_items.length =
      (impl_gdnative_expose ⟨c, xs ++ ys⟩).2.methods.length := by
  constructor
  · have hx : (extractItems (xs ++ item :: ys)).2 = (extractItems (xs ++ ys)).2 := by
      rw [extractItems_append, extractItems_append,
        extractItems_snd_cons_of_nonExported item ys h]
    simp [derive_methods, impl_gdnative_expose, hx]
  · simp [derive_methods, impl_gdnative_expose]

/-- Witness for C7: inserting a non-method item in front of an exported
method leaves the registration sequence unchanged. -/
theorem c7_witness :
    (derive_methods ⟨"Foo", [] ++ ImplItem.other "tokens" ::
        [ImplItem.method [exportAttr AttrTokens.empty]
          (mkSig "m" [selfArg, ownerArg]) "b"]⟩).register_items =
      (derive_methods ⟨"Foo", [] ++
        [ImplItem.method [exportAttr AttrTokens.empty]
          (mkSig "m" [selfArg, ownerArg]) "b"]⟩).register_items ∧
    (derive_methods ⟨"Foo", [] ++
        [ImplItem.method [exportAttr AttrTokens.empty]
          (mkSig "m" [selfArg, ownerArg]) "b"]⟩).register_items.length =
      (impl_gdnative_expose ⟨"Foo", [] ++
        [ImplItem.method [exportAttr AttrTokens.empty]
          (mkSig "m" [selfArg, ownerArg]) "b"]⟩).2.methods.length :=
  c7_order_preservation "Foo" [] _ (ImplItem.other "tokens") (by simp [NonExported])

/-- An export annotation whose payload is the single unknown pair
`bogus = "x"` on an otherwise valid method. -/
def implC8 : ItemImpl := ⟨"Foo", [ImplItem.method
  [exportAttr (AttrTokens.meta (AttrMeta.list [NestedMeta.nameValue ⟨["bogus"], Lit.str "x"⟩]))]
  (mkSig "f" [selfArg, ownerArg]) "body"]⟩

/-- Claim C8: the unknown key produces exactly one diagnostic containing the
literal key name, and the method is still registered with default
`ExportArgs` (`optional_args = none`, `rpc_mode = Disabled`). -/
theorem c8_unknown_key :
    derive_methods implC8 =
      ⟨⟨"Foo", [ImplItem.verbatim "unknown option for export: `bogus`",
        ImplItem.method [] (mkSig "f" [selfArg, ownerArg]) "body"]⟩, "Foo",
        [RegItem.register "f" [selfArg, ownerArg] 0 "()" RpcMode.Disabled]⟩ ∧
    (impl_gdnative_expose implC8).2.methods =
      [⟨mkSig "f" [selfArg, ownerArg], ⟨none, RpcMode.Disabled⟩⟩] := by
  constructor <;> rfl

/-- Absence of a `mut` binding on an argument as the emitter sees it. -/
def FnArg.noMut : FnArg → Prop
  | FnArg.typed _ (Pat.ident m _) _ => m = false
  | _ => True

/-- Normalization leaves no `mut` binding on any argument. -/
theorem noMut_normalizeInputs (l : List FnArg) :
    ∀ arg ∈ normalizeInputs l, FnArg.noMut arg := by
  intro arg harg
  simp only [normalizeInputs, List.mem_map] at harg
  obtain ⟨⟨i, b⟩, _, rfl⟩ := harg
  cases b with
  | receiver attrs => simp [normalizeArg, FnArg.noMut]
  | typed attrs pat ty => cases pat <;> simp [normalizeArg, normalizePat, FnArg.noMut]

/-- An exported `unsafe` method with a `mut` argument and a wildcard
argument. -/
def sigUnsafe : Signature :=
  ⟨"u", true, ⟨0, 0, 0⟩, [selfArg, ownerArg, FnArg.typed [] (Pat.ident true "x") "i64",
    FnArg.typed [] Pat.wild "i64"], some "f32"⟩

/-- The class around `sigUnsafe`. -/
def implUnsafe : ItemImpl :=
  ⟨"Foo", [ImplItem.method [exportAttr AttrTokens.empty] sigUnsafe "body"]⟩

/-- Counterexample for C9: in the rewritten impl block the exported method
keeps its unsafety qualifier and its `mut` binding unchanged — only the
signature copy stored for registration is stripped. -/
theorem c9_counterexample :
    (derive_methods implUnsafe).impl_block.items = [ImplItem.method [] sigUnsafe "body"] ∧
    (impl_gdnative_expose implUnsafe).2.methods =
      [⟨⟨"u", false, ⟨0, 0, 0⟩, [selfArg, ownerArg, FnArg.typed [] (Pat.ident false "x") "i64",
        FnArg.typed [] (Pat.ident false "___unused_arg_3") "i64"], some "f32"⟩,
        ⟨none, RpcMode.Disabled⟩⟩] := by
  constructor <;> rfl

/-- Claim C9 (amended): members without the export marker pass through the
rewrite unchanged, and the signature copy accepted by the shape check has
its unsafety qualifier removed and no `mut` bindings — while the method kept
in the rewritten impl block is not so stripped. -/
theorem c9_rewrite_frame :
    (∀ attrs sig body,
      (∀ a ∈ attrs, ¬(a.style = AttrStyle.Outer ∧ a.path.getLast? = some "export")) →
      processMethod attrs sig body = ([ImplItem.method attrs sig body], none)) ∧
    (∀ m m1, checkShape m = Except.ok m1 →
      m1.sig.unsafety = false ∧ ∀ arg ∈ m1.sig.inputs, FnArg.noMut arg) := by
  constructor
  · exact processMethod_of_no_export
  · intro m m1 hok
    simp only [checkShape] at hok
    split at hok
    · exact Except.noConfusion hok
    · split at hok
      · exact Except.noConfusion hok
      · split at hok
        · exact Except.noConfusion hok
        · cases hok
          exact ⟨rfl, noMut_normalizeInputs m.sig.inputs⟩

/-- Witness for C9: a method whose only attribute is the parameter-level
`opt` marker is not an export and passes through unchanged. -/
theorem c9_witness :
    processMethod [optAttr] (mkSig "n" []) "b" =
      ([ImplItem.method [optAttr] (mkSig "n" []) "b"], none) :=
  c9_rewrite_frame.1 [optAttr] (mkSig "n" []) "b" (by decide)

/-- Claim C10: a method whose attributes are all inner-style or not named
`export` in their last path segment is left untouched: the attribute stays,
the method is not exported, and no diagnostics are produced. -/
theorem c10_inner_export_ignored (attrs : List Attr) (sig : Signature) (body : String)
    (h : ∀ a ∈ attrs, a.style = AttrStyle.Inner ∨ a.path.getLast? ≠ some "export") :
    processMethod attrs sig body = ([ImplItem.method attrs sig body], none) := by
  apply processMethod_of_no_export
  intro a ha
  rcases h a ha with h1 | h1
  · rintro ⟨h2, -⟩
    rw [h1] at h2
    exact AttrStyle.noConfusion h2
  · rintro ⟨-, h2⟩
    exact h1 h2

/-- Witness for C10: an inner-style `export` attribute is ignored and kept in
place. -/
theorem c10_witness :
    processMethod [⟨AttrStyle.Inner, ["export"], AttrTokens.empty⟩]
        (mkSig "f" [selfArg, ownerArg]) "body" =
      ([ImplItem.method [⟨AttrStyle.Inner, ["export"], AttrTokens.empty⟩]
        (mkSig "f" [selfArg, ownerArg]) "body"], none) :=
  c10_inner_export_ignored _ _ _ (by decide)

end Gdnative
